import Mathlib

/-!
Shallow embedding of the pyMake command-synthesis engine (pyMake.py).

The engine resolves a chain of TOML configuration documents into one
command string.  We embed the pure core faithfully:

* `Override` mirrors the `Override` class (split a `key:value` CLI string).
* `lf_args` mirrors `lf_args` (first-match key lookup across the chain).
* `checkCommand` mirrors `checkCommand` (the `status` gate).
* `generateCommand` mirrors `generateCommand` (token walk and assembly).
* `loadChain` / `includeLoopFuel` mirror the chain-building part of
  `main` (header checks, the reserved-name check on the root document,
  and the `while include` loop, fuel-indexed because the Python loop is
  unguarded).

Python runtime failures that escape the functions (KeyError on a missing
table, TypeError on concatenating a non-string, IndexError on indexing an
empty token, `exit(-1)` after an unresolved key) are modelled by the
`PyErr` error type of an `Except`; strings the source returns as values
(including its `Error: ...` strings) are modelled as `.ok` results, which
matches the string-prefix error convention of the source.
-/

namespace PyMake

/-- A TOML value as the engine consumes it: a string, or an array of
strings (the `exeCommand` / `flashCommand` token sequences). -/
inductive TomlVal where
  | str : String → TomlVal
  | arr : List String → TomlVal
deriving DecidableEq, Repr

/-- A TOML table: ordered key/value pairs, looked up first-match (Python
dicts have unique keys, so first-match lookup coincides with dict lookup). -/
abbrev Table := List (String × TomlVal)

/-- A configuration document: named tables (`header` plus command tables). -/
abbrev Doc := List (String × Table)

/-- Python runtime outcomes that abort the engine: an uncaught KeyError or
TypeError or IndexError, and the `exit(-1)` issued by `lf_args` when a key
resolves nowhere. -/
inductive PyErr where
  | keyError
  | typeError
  | indexError
  | exitUnresolved
deriving DecidableEq, Repr

/-- Characters Python `str.strip()` removes. -/
def isSpaceChar (c : Char) : Bool :=
  c == ' ' || c == '\t' || c == '\n' || c == '\r' || c == '\x0b' || c == '\x0c'

/-- Python `s.strip()`. -/
def pyStrip (s : String) : String :=
  ⟨((s.data.dropWhile isSpaceChar).reverse.dropWhile isSpaceChar).reverse⟩

/-- `needle` is a prefix of `hay` (on character lists). -/
def listPrefixChk : List Char → List Char → Bool
  | [], _ => true
  | _ :: _, [] => false
  | n :: ns, h :: hs => n == h && listPrefixChk ns hs

/-- `needle` occurs as a contiguous sublist of `hay`. -/
def listSubstrChk (needle : List Char) : List Char → Bool
  | [] => listPrefixChk needle []
  | h :: hs => listPrefixChk needle (h :: hs) || listSubstrChk needle hs

/-- Python `needle in hay` on strings: substring containment. -/
def pyIn (needle hay : String) : Bool :=
  listSubstrChk needle.data hay.data

/-- Python `s[0:n]`. -/
def pyTake (s : String) (n : Nat) : String :=
  ⟨s.data.take n⟩

/-- Python `s[1:len(s)-1]`: strip the first and last character. -/
def pySlice1 (s : String) : String :=
  ⟨(s.data.drop 1).dropLast⟩

/-- Split a character list at the first occurrence of `sep` (Python
`s[:s.index(sep)]` and `s[s.index(sep)+1:]`); `none` when `sep` is absent. -/
def splitFirstAt (sep : Char) : List Char → Option (List Char × List Char)
  | [] => none
  | c :: cs =>
    if c == sep then some ([], cs)
    else
      match splitFirstAt sep cs with
      | none => none
      | some (a, b) => some (c :: a, b)

/-- The `Override` class: a target key (`element`) and a replacement text
(`arg`, already space-prefixed). -/
structure Override where
  element : String
  arg : String
deriving DecidableEq, Repr

/-- `Override.__init__`: split `opt` at the first colon when `opt` is
nonempty and contains one, stripping both sides and space-prefixing the
replacement; otherwise both fields are empty. -/
def mkOverride (opt : String) : Override :=
  if opt != "" && pyIn ":" opt then
    match splitFirstAt ':' opt.data with
    | some (bef, aft) => ⟨pyStrip ⟨bef⟩, " " ++ pyStrip ⟨aft⟩⟩
    | none => ⟨"", ""⟩
  else ⟨"", ""⟩

/-- `Override()`, the default argument of `generateCommand`. -/
def defaultOverride : Override := ⟨"", ""⟩

/-- `lf_args(element, command, dict_list)`: scan the chain in order and
return the value of `element` from the first document whose table
`command` defines it; a document lacking the table raises KeyError; if no
document defines the key the source prints an error and exits. -/
def lf_args (element command : String) : List Doc → Except PyErr TomlVal
  | [] => .error .exitUnresolved
  | d :: rest =>
    match d.lookup command with
    | none => .error .keyError
    | some tbl =>
      match tbl.lookup element with
      | some v => .ok v
      | none => lf_args element command rest

/-- `checkCommand(command, dict_list)`: scan the chain in order; the first
document whose table `command` has a `status` key yields the blocked
error string naming the status text and the owning document header name;
`none` models the `0` returned when no layer carries a status. -/
def checkCommand (command : String) : List Doc → Except PyErr (Option String)
  | [] => .ok none
  | d :: rest =>
    match d.lookup command with
    | none => .error .keyError
    | some tbl =>
      match tbl.lookup "status" with
      | none => checkCommand command rest
      | some (.arr _) => .error .typeError
      | some (.str s) =>
        match d.lookup "header" with
        | none => .error .keyError
        | some h =>
          match h.lookup "name" with
          | none => .error .keyError
          | some (.arr _) => .error .typeError
          | some (.str n) =>
            .ok (some ("Error: received the status: \x27" ++ s ++
              "\x27 from the TOML file:" ++ n))

/-- The run-kind search loop of `generateCommand`: the first document
whose table `command` defines the field `run` supplies the token value;
a document lacking the table raises KeyError; `none` when no layer
defines the field. -/
def findRun (run command : String) : List Doc → Except PyErr (Option TomlVal)
  | [] => .ok none
  | d :: rest =>
    match d.lookup command with
    | none => .error .keyError
    | some tbl =>
      match tbl.lookup run with
      | some v => .ok (some v)
      | none => findRun run command rest

/-- Python iteration over the run-kind value: an array yields its
elements; a string yields its one-character substrings. -/
def pyElems : TomlVal → List String
  | .arr xs => xs
  | .str s => s.data.map String.singleton

/-- The mutable loop state of `generateCommand`: the accumulator, the
adjacency flag `next_no_space`, and the `first_cmd` flag shared by the
`_make` / `_cmake` markers. -/
structure GenState where
  commands_to_run : String
  next_no_space : Bool
  first_cmd : Bool
deriving DecidableEq, Repr

/-- One iteration of the token walk of `generateCommand`, in the source
order of classification: `_make` prefix, `_cmake` prefix, `_src_` prefix,
override match (nonempty token equal to the override target), adjacency
key `_x_`, assignment token ending in `=`, and plain key.  Indexing an
empty token raises IndexError; a resolved non-string value raises
TypeError at the concatenation. -/
def assembleStep (command : String) (dict_list : List Doc) (source : String)
    (override : Override) (st : GenState) (element : String) :
    Except PyErr GenState :=
  if pyIn "_make" (pyTake element 5) then
    .ok { st with
      commands_to_run := st.commands_to_run ++ (if st.first_cmd then "" else ";") ++
        " make -j$(($(nproc) - 1)) -C " ++ source,
      first_cmd := false }
  else if pyIn "_cmake" (pyTake element 6) then
    .ok { st with
      commands_to_run := st.commands_to_run ++ (if st.first_cmd then "" else ";") ++
        " cmake -S " ++ source,
      first_cmd := false }
  else if pyIn "_src_" (pyTake element 5) then
    .ok { st with
      commands_to_run := st.commands_to_run ++
        (if st.next_no_space then "" else " ") ++ source,
      next_no_space := true }
  else if override.element == element && element != "" then
    .ok { st with commands_to_run := st.commands_to_run ++ override.arg }
  else if element == "" then
    .error .indexError
  else if element.data.head? == some '_' && element.data.getLast? == some '_' then
    match lf_args (pySlice1 element) command dict_list with
    | .error e => .error e
    | .ok (.arr _) => .error .typeError
    | .ok (.str s) =>
      .ok { st with
        commands_to_run := st.commands_to_run ++ s,
        next_no_space := true }
  else if element.data.getLast? == some '=' then
    .ok { st with
      commands_to_run := st.commands_to_run ++ " " ++ element,
      next_no_space := true }
  else
    match lf_args element command dict_list with
    | .error e => .error e
    | .ok (.arr _) => .error .typeError
    | .ok (.str arg) =>
      if st.next_no_space then
        .ok { st with
          commands_to_run := st.commands_to_run ++ arg,
          next_no_space := false }
      else
        .ok { st with commands_to_run := st.commands_to_run ++ " " ++ arg }

/-- `generateCommand(command, dict_list, source, run_flash, override)`:
run the status gate, select the run-kind field by mode, find its first
definition in the chain, walk the token sequence with `assembleStep`, and
append one trailing space.  The `Error: ...` strings the source returns
as ordinary values are `.ok` results here. -/
def generateCommand (command : String) (dict_list : List Doc) (source : String)
    (run_flash : Bool) (override : Override) : Except PyErr String :=
  match checkCommand command dict_list with
  | .error e => .error e
  | .ok (some ret) => .ok ret
  | .ok none =>
    let run := if run_flash then "flashCommand" else "exeCommand"
    match findRun run command dict_list with
    | .error e => .error e
    | .ok none => .ok ("Error: " ++ run ++ " not found in any TOML files.")
    | .ok (some exe_command) =>
      match (pyElems exe_command).foldlM
          (assembleStep command dict_list source override) ⟨"", false, true⟩ with
      | .error e => .error e
      | .ok st => .ok (st.commands_to_run ++ " ")

/-! ### Chain loading (the relevant part of `main`)

`main` parses the root document, requires a `header` table with a `name`
key, rejects a root-level table named `all`, then follows
`header.include` in a `while` loop, appending each included document to
the chain.  The loop body and every include failure sit inside one
`try/except` that turns any exception into a fatal include error.  The
loop itself has no cycle guard, so we index it by fuel: a `none` result
means the loop has not finished within the given number of iterations.
-/

/-- Load-stage outcomes of `main`, one per exit path. -/
inductive LoadErr where
  | rootOpenError
  | missingHeader
  | missingName
  | reservedAll
  | includeError
deriving DecidableEq, Repr

/-- The file system seen by `open`: a map from path to parsed document. -/
abbrev FileSys := List (String × Doc)

/-- The `while include in header` loop of `main`, fuel-indexed.  Each
iteration looks at the current document: a missing `header` (KeyError), a
non-string `include` value, or an unopenable include path all raise inside
the `try` block and become a fatal include error; a document without
`include` ends the loop; otherwise the included document is appended and
becomes current.  `none` means the fuel ran out with the loop still
running. -/
def includeLoopFuel (fs : FileSys) : Nat → Doc → List Doc →
    Option (Except LoadErr (List Doc))
  | 0, _, _ => none
  | Nat.succ n, cur, acc =>
    match cur.lookup "header" with
    | none => some (.error .includeError)
    | some h =>
      match h.lookup "include" with
      | none => some (.ok acc)
      | some (.arr _) => some (.error .includeError)
      | some (.str p) =>
        match fs.lookup p with
        | none => some (.error .includeError)
        | some d => includeLoopFuel fs n d (acc ++ [d])

/-- The chain-building prefix of `main`: open and parse the root document,
check `header` and `header.name`, reject a root table named `all`, then
run the include loop starting from the root.  Only the root document is
subject to the header and reserved-name checks. -/
def loadChain (fs : FileSys) (fuel : Nat) (path : String) :
    Option (Except LoadErr (List Doc)) :=
  match fs.lookup path with
  | none => some (.error .rootOpenError)
  | some d =>
    match d.lookup "header" with
    | none => some (.error .missingHeader)
    | some h =>
      match h.lookup "name" with
      | none => some (.error .missingName)
      | some _ =>
        match d.lookup "all" with
        | some _ => some (.error .reservedAll)
        | none => includeLoopFuel fs fuel d [d]

/-! ### Decidable equality for results -/

instance exceptDecEq {a b : Type} [DecidableEq a] [DecidableEq b] :
    DecidableEq (Except a b) := fun x y =>
  match x, y with
  | .ok u, .ok v =>
    if h : u = v then isTrue (congrArg Except.ok h)
    else isFalse (fun hc => h (Except.ok.inj hc))
  | .error u, .error v =>
    if h : u = v then isTrue (congrArg Except.error h)
    else isFalse (fun hc => h (Except.error.inj hc))
  | .ok _, .error _ => isFalse (fun hc => Except.noConfusion hc)
  | .error _, .ok _ => isFalse (fun hc => Except.noConfusion hc)

/-! ### Concrete documents used by the claims and witnesses -/

/-- The worked example document of the source header comment: table
`example` with the five-token `exeCommand` and the keys `optimization`
(empty), `target`, `buildDir`. -/
def exDoc : Doc :=
  [("header", [("name", .str "test")]),
   ("example",
     [("exeCommand", .arr ["_make", "optimization", "target", "BUILD_PLAT=", "buildDir"]),
      ("optimization", .str ""),
      ("target", .str "all"),
      ("buildDir", .str "../build")])]

/-- A document whose `example` table repeats the token `target` twice. -/
def dupTokDoc : Doc :=
  [("header", [("name", .str "test")]),
   ("example",
     [("exeCommand", .arr ["target", "target"]),
      ("target", .str "all")])]

/-- Document A of the include cycle: its header includes `b.toml`. -/
def cycDocA : Doc :=
  [("header", [("name", .str "a"), ("include", .str "b.toml")])]

/-- Document B of the include cycle: its header includes `a.toml`. -/
def cycDocB : Doc :=
  [("header", [("name", .str "b"), ("include", .str "a.toml")])]

/-- The cyclic file system: `a.toml` includes `b.toml` and back. -/
def cycFS : FileSys := [("a.toml", cycDocA), ("b.toml", cycDocB)]

/-- A well-formed root document whose header includes `inc.toml`. -/
def c4Root : Doc :=
  [("header", [("name", .str "root"), ("include", .str "inc.toml")])]

/-- An included document that carries a table literally named `all`. -/
def c4Inc : Doc :=
  [("header", [("name", .str "inc")]),
   ("all", [("exeCommand", .arr ["_make"])])]

/-- File system for the reserved-name claim: a clean root including a
document with a table named `all`. -/
def c4FS : FileSys := [("root.toml", c4Root), ("inc.toml", c4Inc)]

/-- Two-layer chain for shadowing: both documents define `target` under
`example`; layer 0 holds `v0`. -/
def shadowDoc0 : Doc :=
  [("header", [("name", .str "zero")]),
   ("example", [("target", .str "v0")])]

/-- Layer 1 of the shadowing chain, holding `v1` for the same key. -/
def shadowDoc1 : Doc :=
  [("header", [("name", .str "one")]),
   ("example", [("target", .str "v1")])]

/-- A document whose `example` table carries a `status` field next to a
perfectly resolvable `exeCommand`. -/
def blockedDoc : Doc :=
  [("header", [("name", .str "blocked")]),
   ("example",
     [("status", .str "do not build"),
      ("exeCommand", .arr ["_make"]),
      ("target", .str "all")])]

/-- A document whose `example` table defines neither `exeCommand` nor
`flashCommand` (and no `status`). -/
def noRunDoc : Doc :=
  [("header", [("name", .str "norun")]),
   ("example", [("target", .str "all")])]

/-- A document resolving `foo`, `bar`, `baz` to `X`, `Y`, `Z` under
`example`, for the adjacency claim. -/
def adjDoc : Doc :=
  [("header", [("name", .str "adj")]),
   ("example", [("foo", .str "X"), ("bar", .str "Y"), ("baz", .str "Z")])]

/-- Token `t` is classified by `assembleStep` as an adjacency key
resolving to `X`: none of the three marker prefixes, not the override
target, wrapped in underscores, and its inner name resolves to the string
`X`. -/
abbrev IsAdjKeyToken (command : String) (dict_list : List Doc)
    (override : Override) (t X : String) : Prop :=
  pyIn "_make" (pyTake t 5) = false ∧
  pyIn "_cmake" (pyTake t 6) = false ∧
  pyIn "_src_" (pyTake t 5) = false ∧
  override.element ≠ t ∧
  t.data.head? = some '_' ∧
  t.data.getLast? = some '_' ∧
  lf_args (pySlice1 t) command dict_list = .ok (.str X)

/-- Token `t` is classified by `assembleStep` as a plain key resolving to
`Y`: no marker prefix, not the override target, nonempty, not
underscore-wrapped, not ending in `=`, and resolving to the string `Y`. -/
abbrev IsPlainToken (command : String) (dict_list : List Doc)
    (override : Override) (t Y : String) : Prop :=
  pyIn "_make" (pyTake t 5) = false ∧
  pyIn "_cmake" (pyTake t 6) = false ∧
  pyIn "_src_" (pyTake t 5) = false ∧
  override.element ≠ t ∧
  t ≠ "" ∧
  ¬(t.data.head? = some '_' ∧ t.data.getLast? = some '_') ∧
  t.data.getLast? ≠ some '=' ∧
  lf_args t command dict_list = .ok (.str Y)

/-! ### Helper lemmas -/

/-- On the cyclic file system the include loop consumes every amount of
fuel without finishing, from either document. -/
theorem cycLoopStuck : ∀ n : Nat,
    (∀ acc, includeLoopFuel cycFS n cycDocA acc = none) ∧
    (∀ acc, includeLoopFuel cycFS n cycDocB acc = none) := by
  intro n
  induction n with
  | zero => exact ⟨fun _ => rfl, fun _ => rfl⟩
  | succ n ih =>
    refine ⟨fun acc => ?_, fun acc => ?_⟩
    · have h : includeLoopFuel cycFS (Nat.succ n) cycDocA acc =
          includeLoopFuel cycFS n cycDocB (acc ++ [cycDocB]) := rfl
      rw [h]
      exact ih.2 _
    · have h : includeLoopFuel cycFS (Nat.succ n) cycDocB acc =
          includeLoopFuel cycFS n cycDocA (acc ++ [cycDocA]) := rfl
      rw [h]
      exact ih.1 _

/-- The include loop never reports the reserved-name error: that check is
made on the root document only, before the loop starts. -/
theorem includeLoop_no_reserved (fs : FileSys) :
    ∀ (n : Nat) (cur : Doc) (acc : List Doc),
      includeLoopFuel fs n cur acc ≠ some (.error .reservedAll) := by
  intro n
  induction n with
  | zero => intro cur acc h; exact Option.noConfusion h
  | succ n ih =>
    intro cur acc
    cases hh : List.lookup "header" cur with
    | none => simp [includeLoopFuel, hh]
    | some h =>
      cases hi : List.lookup "include" h with
      | none => simp [includeLoopFuel, hh, hi]
      | some v =>
        cases v with
        | arr xs => simp [includeLoopFuel, hh, hi]
        | str p =>
          cases hp : List.lookup p fs with
          | none => simp [includeLoopFuel, hh, hi, hp]
          | some d =>
            have he : includeLoopFuel fs (Nat.succ n) cur acc =
                includeLoopFuel fs n d (acc ++ [d]) := by
              simp [includeLoopFuel, hh, hi, hp]
            rw [he]
            exact ih d (acc ++ [d])

/-- Dropping a status-free prefix of the chain does not change the status
gate result. -/
theorem checkCommand_skip_clean (command : String) :
    ∀ pre rest : List Doc,
      (∀ p ∈ pre, ∃ tp, p.lookup command = some tp ∧ tp.lookup "status" = none) →
      checkCommand command (pre ++ rest) = checkCommand command rest := by
  intro pre
  induction pre with
  | nil => intro rest _; rfl
  | cons p ps ih =>
    intro rest hpre
    obtain ⟨tp, h1, h2⟩ := hpre p (List.mem_cons_self p ps)
    have he : checkCommand command ((p :: ps) ++ rest) =
        checkCommand command (ps ++ rest) := by
      simp [checkCommand, h1, h2]
    rw [he]
    exact ih rest (fun q hq => hpre q (List.mem_cons_of_mem p hq))

/-- A chain with no `status` field anywhere passes the status gate. -/
theorem checkCommand_clean (command : String) (chain : List Doc)
    (h : ∀ p ∈ chain, ∃ tp, p.lookup command = some tp ∧ tp.lookup "status" = none) :
    checkCommand command chain = .ok none := by
  have he := checkCommand_skip_clean command chain [] h
  simpa using he

/-- When no layer defines the requested run-kind field, the search walks
the whole chain and reports nothing found. -/
theorem findRun_none (run command : String) :
    ∀ chain : List Doc,
      (∀ p ∈ chain, ∃ tp, p.lookup command = some tp ∧ tp.lookup run = none) →
      findRun run command chain = .ok none := by
  intro chain
  induction chain with
  | nil => intro _; rfl
  | cons p ps ih =>
    intro h
    obtain ⟨tp, h1, h2⟩ := h p (List.mem_cons_self p ps)
    have he : findRun run command (p :: ps) = findRun run command ps := by
      simp [findRun, h1, h2]
    rw [he]
    exact ih (fun q hq => h q (List.mem_cons_of_mem p hq))

/-- An adjacency-key token appends its resolved value with no preceding
space and raises the adjacency flag. -/
theorem assembleStep_adjKey (command : String) (dict_list : List Doc)
    (source : String) (override : Override) (t X : String)
    (h : IsAdjKeyToken command dict_list override t X) (st : GenState) :
    assembleStep command dict_list source override st t =
      .ok ⟨st.commands_to_run ++ X, true, st.first_cmd⟩ := by
  obtain ⟨h1, h2, h3, h4, h5, h6, h7⟩ := h
  have hne : t ≠ "" := by
    intro he
    subst he
    exact Option.noConfusion h5
  simp [assembleStep, h1, h2, h3, h4, h5, h6, h7, hne]

/-- A plain token reached with the adjacency flag raised appends its
resolved value without a space and clears the flag. -/
theorem assembleStep_plain_nospace (command : String) (dict_list : List Doc)
    (source : String) (override : Override) (t Y : String)
    (h : IsPlainToken command dict_list override t Y) (st : GenState)
    (hst : st.next_no_space = true) :
    assembleStep command dict_list source override st t =
      .ok ⟨st.commands_to_run ++ Y, false, st.first_cmd⟩ := by
  obtain ⟨h1, h2, h3, h4, h5, h6, h7, h8⟩ := h
  simp [assembleStep, h1, h2, h3, h4, h5, h6, h7, h8, hst]

/-- A plain token reached with the adjacency flag lowered appends a space
and its resolved value, leaving the flag lowered. -/
theorem assembleStep_plain_space (command : String) (dict_list : List Doc)
    (source : String) (override : Override) (t Y : String)
    (h : IsPlainToken command dict_list override t Y) (st : GenState)
    (hst : st.next_no_space = false) :
    assembleStep command dict_list source override st t =
      .ok ⟨st.commands_to_run ++ " " ++ Y, false, st.first_cmd⟩ := by
  obtain ⟨h1, h2, h3, h4, h5, h6, h7, h8⟩ := h
  simp [assembleStep, h1, h2, h3, h4, h5, h6, h7, h8, hst]

/-- Two successful steps compose under the token fold. -/
theorem foldlM_pair {f : GenState → String → Except PyErr GenState}
    {st s1 s2 : GenState} {t1 t2 : String}
    (h1 : f st t1 = .ok s1) (h2 : f s1 t2 = .ok s2) :
    List.foldlM f st [t1, t2] = .ok s2 := by
  have he : List.foldlM f st [t1, t2] =
      (f st t1) >>= fun s => (f s t2) >>= fun r => pure r := rfl
  rw [he, h1]
  show (f s1 t2) >>= (fun r => pure r) = .ok s2
  rw [h2]
  rfl

/-! ### Claim theorems -/

/-- Claim C1: on the worked example chain (table `example`, five-token
`exeCommand`, empty `optimization`, `target=all`, `buildDir=../build`),
build-mode assembly with source `../linux/v1/` and no override returns
exactly `" make -j$(($(nproc) - 1)) -C ../linux/v1/  all BUILD_PLAT=../build "`
(the `$(($(nproc) - 1))` text is the available-core-count-minus-one
parallelism hint, the double space comes from the empty `optimization`
value, and one space trails); with the override `target:boot` the same
call returns the same string with ` all` replaced by ` boot`. -/
theorem c1_override_precedence_example :
    generateCommand "example" [exDoc] "../linux/v1/" false defaultOverride =
      .ok " make -j$(($(nproc) - 1)) -C ../linux/v1/  all BUILD_PLAT=../build " ∧
    generateCommand "example" [exDoc] "../linux/v1/" false (mkOverride "target:boot") =
      .ok " make -j$(($(nproc) - 1)) -C ../linux/v1/  boot BUILD_PLAT=../build " :=
  ⟨rfl, rfl⟩

/-- Claim C2 counterexample: with `exeCommand = ["target", "target"]`,
`target="all"` and the override `target:boot`, the assembled string is
`" boot boot "`: both occurrences of the matching literal are replaced,
not exactly one (which would give `" boot all "` or `" all boot "`). -/
theorem c2_override_replaces_all_occurrences_cex :
    generateCommand "example" [dupTokDoc] "../src/" false (mkOverride "target:boot") =
      .ok " boot boot " ∧
    (" boot boot " : String) ≠ " boot all " ∧
    (" boot boot " : String) ≠ " all boot " := by
  decide

/-- Claim C2 (amended): every token equal to the override target (when
that token is nonempty and carries none of the reserved marker prefixes)
is replaced by the override replacement text: each such step appends
`override.arg` and leaves both the adjacency and first-command flags
unchanged, so the replacement applies at every matching occurrence, not
exactly one; non-matching tokens resolve normally. -/
theorem c2_override_step_replaces_each_match (command : String)
    (dict_list : List Doc) (source : String) (override : Override)
    (element : String) (st : GenState)
    (h1 : pyIn "_make" (pyTake element 5) = false)
    (h2 : pyIn "_cmake" (pyTake element 6) = false)
    (h3 : pyIn "_src_" (pyTake element 5) = false)
    (h4 : override.element = element) (h5 : element ≠ "") :
    assembleStep command dict_list source override st element =
      .ok { st with commands_to_run := st.commands_to_run ++ override.arg } := by
  simp [assembleStep, h1, h2, h3, h4, h5]

/-- Witness for claim C2: the step at token `target` under override
`target:boot` appends the replacement text. -/
theorem c2_override_step_witness :
    assembleStep "example" [dupTokDoc] "../src/" (mkOverride "target:boot")
        ⟨"", false, true⟩ "target" =
      .ok { (⟨"", false, true⟩ : GenState) with
        commands_to_run :=
          (⟨"", false, true⟩ : GenState).commands_to_run ++
            (mkOverride "target:boot").arg } :=
  c2_override_step_replaces_each_match "example" [dupTokDoc] "../src/"
    (mkOverride "target:boot") "target" ⟨"", false, true⟩
    (by decide) (by decide) (by decide) (by decide) (by decide)

/-- Claim C3: the chain-building loop of `main` follows a cyclic include
graph forever: on documents A and B that include each other, no amount of
fuel makes the loop finish, so no structural error is ever produced.  The
source loop is unguarded; the spec requires rejection, so this records the
divergence of the code from the claim. -/
theorem c3_include_cycle_loops_forever :
    ∀ fuel : Nat, loadChain cycFS fuel "a.toml" = none := by
  intro fuel
  have h : loadChain cycFS fuel "a.toml" =
      includeLoopFuel cycFS fuel cycDocA [cycDocA] := rfl
  rw [h]
  exact (cycLoopStuck fuel).1 [cycDocA]

/-- Claim C4 counterexample: a clean root including a document that
carries a table literally named `all` loads successfully: the chain
`[c4Root, c4Inc]` is produced and handed on, with no ReservedNameError,
even though `c4Inc` contains the reserved table. -/
theorem c4_included_all_table_accepted_cex :
    loadChain c4FS 2 "root.toml" = some (.ok [c4Root, c4Inc]) ∧
    c4Inc.lookup "all" = some [("exeCommand", .arr ["_make"])] :=
  ⟨rfl, rfl⟩

/-- Claim C4 (amended): loading fails with the reserved-name error
exactly when the ROOT document contains a table literally named `all`
(once the root opens and its header and name checks pass); tables named
`all` inside included documents are never checked and never rejected. -/
theorem c4_reserved_all_root_only (fs : FileSys) (fuel : Nat) (path : String)
    (d : Doc) (h : Table)
    (hd : fs.lookup path = some d) (hh : d.lookup "header" = some h)
    (hn : h.lookup "name" ≠ none) :
    (loadChain fs fuel path = some (.error .reservedAll) ↔
      d.lookup "all" ≠ none) := by
  cases hn' : List.lookup "name" h with
  | none => exact absurd hn' hn
  | some v =>
    cases ha : List.lookup "all" d with
    | none =>
      simp [loadChain, hd, hh, hn', ha]
      exact includeLoop_no_reserved fs fuel d [d]
    | some t =>
      simp [loadChain, hd, hh, hn', ha]

/-- Witness for claim C4: on the concrete include file system, the
equivalence instantiates at the clean root (both sides false). -/
theorem c4_reserved_all_root_only_witness :
    (loadChain c4FS 2 "root.toml" = some (.error .reservedAll) ↔
      c4Root.lookup "all" ≠ none) :=
  c4_reserved_all_root_only c4FS 2 "root.toml" c4Root
    [("name", .str "root"), ("include", .str "inc.toml")]
    (by decide) (by decide) (by decide)

/-- Claim C5: key resolution is first-match-wins over the chain order:
when every document before `d` has the command table but leaves `key`
undefined, and the table of `d` defines `key` as `v`, `lf_args` returns
`v`; in particular when chain[0] defines the key (empty prefix) its value
wins over any later layer. -/
theorem c5_resolve_first_match (key command : String) (pre : List Doc)
    (d : Doc) (rest : List Doc) (t : Table) (v : TomlVal)
    (hpre : ∀ p ∈ pre, ∃ tp, p.lookup command = some tp ∧ tp.lookup key = none)
    (hd : d.lookup command = some t) (hv : t.lookup key = some v) :
    lf_args key command (pre ++ d :: rest) = .ok v := by
  induction pre with
  | nil => simp [lf_args, hd, hv]
  | cons p ps ih =>
    obtain ⟨tp, h1, h2⟩ := hpre p (List.mem_cons_self p ps)
    have he : lf_args key command ((p :: ps) ++ d :: rest) =
        lf_args key command (ps ++ d :: rest) := by
      simp [lf_args, h1, h2]
    rw [he]
    exact ih (fun q hq => hpre q (List.mem_cons_of_mem p hq))

/-- Witness for claim C5: both layers define `target` under `example`;
resolution returns the value of layer 0. -/
theorem c5_resolve_first_match_witness :
    lf_args "target" "example" [shadowDoc0, shadowDoc1] = .ok (.str "v0") :=
  c5_resolve_first_match "target" "example" [] shadowDoc0 [shadowDoc1]
    [("target", .str "v0")]
    (.str "v0") (by simp) (by decide) (by decide)

/-- Claim C6: when the first document of the chain whose table carries a
`status` field is `d` (every earlier layer has the table and no status),
assembly returns the blocked error string naming the status text and the
declared header name of `d`, for every source, mode and override and for
arbitrary table contents, so no token is ever inspected. -/
theorem c6_status_short_circuit (command : String) (pre : List Doc) (d : Doc)
    (rest : List Doc) (t h : Table) (s n source : String)
    (run_flash : Bool) (override : Override)
    (hpre : ∀ p ∈ pre, ∃ tp, p.lookup command = some tp ∧ tp.lookup "status" = none)
    (ht : d.lookup command = some t) (hs : t.lookup "status" = some (.str s))
    (hh : d.lookup "header" = some h) (hn : h.lookup "name" = some (.str n)) :
    generateCommand command (pre ++ d :: rest) source run_flash override =
      .ok ("Error: received the status: \x27" ++ s ++
        "\x27 from the TOML file:" ++ n) := by
  have hck : checkCommand command (pre ++ d :: rest) =
      .ok (some ("Error: received the status: \x27" ++ s ++
        "\x27 from the TOML file:" ++ n)) := by
    rw [checkCommand_skip_clean command pre (d :: rest) hpre]
    simp [checkCommand, ht, hs, hh, hn]
  simp [generateCommand, hck]

/-- Witness for claim C6: the blocked document yields its status error
even though its `exeCommand` would assemble fine. -/
theorem c6_status_short_circuit_witness :
    generateCommand "example" [blockedDoc] "../src/" false defaultOverride =
      .ok ("Error: received the status: \x27do not build\x27 from the TOML file:blocked") :=
  c6_status_short_circuit "example" [] blockedDoc []
    [("status", .str "do not build"), ("exeCommand", .arr ["_make"]),
     ("target", .str "all")]
    [("name", .str "blocked")]
    "do not build" "blocked" "../src/" false defaultOverride
    (by simp) (by decide) (by decide) (by decide) (by decide)

/-- Claim C7: when no layer of the chain defines the run-kind field
selected by the mode (build selects `exeCommand`, flash selects
`flashCommand`) under the requested table, and no layer blocks it,
assembly returns exactly the missing-run-key error string: no partial or
empty command string and no token is emitted. -/
theorem c7_missing_run_kind (command : String) (chain : List Doc)
    (source : String) (run_flash : Bool) (override : Override)
    (hch : ∀ p ∈ chain, ∃ tp, p.lookup command = some tp ∧
      tp.lookup "status" = none ∧
      tp.lookup (if run_flash then "flashCommand" else "exeCommand") = none) :
    generateCommand command chain source run_flash override =
      .ok ("Error: " ++ (if run_flash then "flashCommand" else "exeCommand") ++
        " not found in any TOML files.") := by
  have h1 : checkCommand command chain = .ok none := by
    refine checkCommand_clean command chain (fun p hp => ?_)
    obtain ⟨tp, ha, hb, _⟩ := hch p hp
    exact ⟨tp, ha, hb⟩
  have h2 : findRun (if run_flash then "flashCommand" else "exeCommand")
      command chain = .ok none := by
    refine findRun_none _ command chain (fun p hp => ?_)
    obtain ⟨tp, ha, _, hc⟩ := hch p hp
    exact ⟨tp, ha, hc⟩
  cases run_flash with
  | false =>
    simp at h2
    simp [generateCommand, h1, h2]
  | true =>
    simp at h2
    simp [generateCommand, h1, h2]

/-- Witness for claim C7: a chain whose only layer defines neither run
field under `example` yields the missing-exeCommand error in build mode. -/
theorem c7_missing_run_kind_witness :
    generateCommand "example" [noRunDoc] "../src/" false defaultOverride =
      .ok ("Error: " ++ (if false then "flashCommand" else "exeCommand") ++
        " not found in any TOML files.") :=
  c7_missing_run_kind "example" [noRunDoc] "../src/" false defaultOverride
    (by intro p hp
        simp at hp
        subst hp
        exact ⟨[("target", .str "all")], by decide, by decide, by decide⟩)

/-- Claim C8: an adjacency-key token resolving to `X` immediately
followed by a plain token resolving to `Y` contributes `XY` with no space
between the two resolved values, while two consecutive plain tokens
resolving to `Y` and `Z`, reached with the adjacency flag lowered,
contribute ` Y Z`, separated by exactly one space. -/
theorem c8_adjacency_flag (command : String) (dict_list : List Doc)
    (source : String) (override : Override) (t1 t2 t3 X Y Z : String)
    (st : GenState)
    (h1 : IsAdjKeyToken command dict_list override t1 X)
    (h2 : IsPlainToken command dict_list override t2 Y)
    (h3 : IsPlainToken command dict_list override t3 Z)
    (hst : st.next_no_space = false) :
    List.foldlM (assembleStep command dict_list source override) st [t1, t2] =
      .ok ⟨st.commands_to_run ++ X ++ Y, false, st.first_cmd⟩ ∧
    List.foldlM (assembleStep command dict_list source override) st [t2, t3] =
      .ok ⟨st.commands_to_run ++ " " ++ Y ++ " " ++ Z, false, st.first_cmd⟩ := by
  constructor
  · exact foldlM_pair
      (assembleStep_adjKey command dict_list source override t1 X h1 st)
      (assembleStep_plain_nospace command dict_list source override t2 Y h2
        ⟨st.commands_to_run ++ X, true, st.first_cmd⟩ rfl)
  · exact foldlM_pair
      (assembleStep_plain_space command dict_list source override t2 Y h2 st hst)
      (assembleStep_plain_space command dict_list source override t3 Z h3
        ⟨st.commands_to_run ++ " " ++ Y, false, st.first_cmd⟩ rfl)

/-- Witness for claim C8: with `foo=X`, `bar=Y`, `baz=Z` under `example`,
the pair `_foo_ bar` contributes `XY` and the pair `bar baz` contributes
` Y Z`. -/
theorem c8_adjacency_flag_witness :
    List.foldlM (assembleStep "example" [adjDoc] "../src/" defaultOverride)
        ⟨"", false, true⟩ ["_foo_", "bar"] =
      .ok ⟨"" ++ "X" ++ "Y", false, true⟩ ∧
    List.foldlM (assembleStep "example" [adjDoc] "../src/" defaultOverride)
        ⟨"", false, true⟩ ["bar", "baz"] =
      .ok ⟨"" ++ " " ++ "Y" ++ " " ++ "Z", false, true⟩ :=
  c8_adjacency_flag "example" [adjDoc] "../src/" defaultOverride
    "_foo_" "bar" "baz" "X" "Y" "Z" ⟨"", false, true⟩
    (by decide) (by decide) (by decide) rfl

/-- Claim C9: assembly is deterministic: it is a total function of the
command name, chain contents, source path, mode and override, so two
calls with equal inputs return equal result strings. -/
theorem c9_assembly_deterministic (ca cb : String) (da db : List Doc)
    (sa sb : String) (ma mb : Bool) (oa ob : Override)
    (hc : ca = cb) (hd : da = db) (hs : sa = sb) (hm : ma = mb)
    (ho : oa = ob) :
    generateCommand ca da sa ma oa = generateCommand cb db sb mb ob := by
  subst hc hd hs hm ho
  rfl

/-- Witness for claim C9: two byte-identical calls on the worked example
agree. -/
theorem c9_assembly_deterministic_witness :
    generateCommand "example" [exDoc] "../linux/v1/" false defaultOverride =
      generateCommand "example" [exDoc] "../linux/v1/" false defaultOverride :=
  c9_assembly_deterministic "example" "example" [exDoc] [exDoc]
    "../linux/v1/" "../linux/v1/" false false defaultOverride defaultOverride
    rfl rfl rfl rfl rfl

/-- Claim C10: an Override built from a string with no colon (the empty
string included) has empty target key and empty replacement text and is
exactly the default no-override value, so assembling any command with it
returns the same string as assembling with the default: the malformed
override is silently the identity and never replaces any token, the
empty-string token included (the override branch demands a nonempty
match). -/
theorem c10_malformed_override_identity (s : String)
    (h : pyIn ":" s = false) :
    mkOverride s = defaultOverride ∧
    ∀ (command : String) (dict_list : List Doc) (source : String)
      (run_flash : Bool),
      generateCommand command dict_list source run_flash (mkOverride s) =
        generateCommand command dict_list source run_flash defaultOverride := by
  have hm : mkOverride s = defaultOverride := by
    simp [mkOverride, defaultOverride, h]
  exact ⟨hm, fun command dict_list source run_flash => by rw [hm]⟩

/-- Witness for claim C10: the colon-free string `boot` yields the
default override and assembly on the worked example is unchanged. -/
theorem c10_malformed_override_identity_witness :
    mkOverride "boot" = defaultOverride ∧
    generateCommand "example" [exDoc] "../linux/v1/" false (mkOverride "boot") =
      generateCommand "example" [exDoc] "../linux/v1/" false defaultOverride :=
  ⟨(c10_malformed_override_identity "boot" (by decide)).1,
   (c10_malformed_override_identity "boot" (by decide)).2
     "example" [exDoc] "../linux/v1/" false⟩

end PyMake
